import Mathlib

/-!
Shallow embedding of the rental-agreement agent backend
(`backend/agent/agent_graph.py`, `backend/integrated_server.py`,
`backend/main.py`) together with theorems settling the frozen claims
about its specification.

Conventions of the embedding:
* Python strings are modelled by `String` (sequences of code points);
  where slicing arithmetic matters we work on `List Char`, the honest
  model of a Python `str`.
* A raised Python exception is modelled by `Except.error` carrying the
  exception text `str(e)`; external services (the hosted LLM, the tool
  bodies, the document database) are oracle parameters, since their
  behaviour is not part of this repository.
* Python dicts of keyword arguments are association lists with unique
  keys; `setArg` is dict assignment (`d[k] = v`), `getArg` is
  `d.get(k, default)`.
-/

/-- Python substring test `needle in hay`, on the underlying code points. -/
def strContains (hay needle : String) : Bool :=
  hay.data.tails.any (fun t => needle.data.isPrefixOf t)

/-- A substring sandwiched between two others is found by `strContains`,
stated on the character lists. -/
theorem tails_any_mid (x y z : List Char) :
    (x ++ (y ++ z)).tails.any (fun t => y.isPrefixOf t) = true := by
  induction x with
  | nil =>
    cases hyz : y ++ z with
    | nil =>
      have hy : y = [] := by
        cases y with
        | nil => rfl
        | cons a l => simp at hyz
      simp [hy, List.tails]
    | cons a l =>
      simp only [List.nil_append, List.tails_cons, List.any_cons, Bool.or_eq_true]
      left
      rw [← hyz]
      simp [List.isPrefixOf_iff_prefix]
  | cons a x ih =>
    simp only [List.cons_append, List.tails_cons, List.any_cons, ih, Bool.or_true]

/-- Containment certificate: a decomposition of the haystack into
`before ++ needle ++ after` makes `strContains` true. -/
theorem strContains_of_parts (a b c : String) :
    strContains (a ++ b ++ c) b = true := by
  unfold strContains
  have h : (a ++ b ++ c).data = a.data ++ (b.data ++ c.data) := by
    simp [String.data_append]
  rw [h]
  exact tails_any_mid a.data b.data c.data

/-- A tool-call directive emitted by the model: the dict
`\x7b "name": ..., "args": ..., "id": ... \x7d` of a LangChain tool call. -/
structure ToolCall where
  name : String
  args : List (String × String)
  id : String
deriving DecidableEq

/-- Conversation turns: `HumanMessage`, `AIMessage` (with its `tool_calls`
list), `ToolMessage` (with its `tool_call_id`) and `SystemMessage`. -/
inductive Message where
  | human (content : String)
  | ai (content : String) (toolCalls : List ToolCall)
  | tool (content : String) (toolCallId : String)
  | system (content : String)
deriving DecidableEq

/-- The LangGraph agent state: the message list (reducer `operator.add`)
plus the scoping user identifier. -/
structure AgentState where
  messages : List Message
  user_id : String
deriving DecidableEq

/-- Dict lookup `d.get(k, default)` on a keyword-argument dict. -/
def getArg : List (String × String) → String → String → String
  | [], _, dflt => dflt
  | (k', v') :: rest, k, dflt => if k' = k then v' else getArg rest k dflt

/-- Dict assignment `d[k] = v`: replace the binding if the key is present,
append it otherwise. -/
def setArg : List (String × String) → String → String → List (String × String)
  | [], k, v => [(k, v)]
  | (k', v') :: rest, k, v =>
    if k' = k then (k, v) :: rest else (k', v') :: setArg rest k v

theorem getArg_setArg_same (a : List (String × String)) (k v d : String) :
    getArg (setArg a k v) k d = v := by
  induction a with
  | nil => simp [setArg, getArg]
  | cons p rest ih =>
    by_cases h : p.1 = k
    · simp [setArg, getArg, h]
    · simp [setArg, getArg, h, ih]

theorem getArg_setArg_ne (a : List (String × String)) (k k' v d : String)
    (h : k ≠ k') : getArg (setArg a k v) k' d = getArg a k' d := by
  induction a with
  | nil => simp [setArg, getArg, h]
  | cons p rest ih =>
    by_cases hp : p.1 = k
    · simp [setArg, getArg, hp, h]
    · simp [setArg, getArg, hp, ih]

theorem setArg_setArg_same (a : List (String × String)) (k v u : String) :
    setArg (setArg a k v) k u = setArg a k u := by
  induction a with
  | nil => simp [setArg]
  | cons p rest ih =>
    by_cases hp : p.1 = k
    · simp [setArg, hp]
    · simp [setArg, hp, ih]

/-- The `tools` list bound to the LLM (agent_graph.py lines 115-122):
six tools. -/
def tools : List String :=
  ["firestore_search", "summarize_agreement", "extract_structured_info",
   "set_rent_reminder", "get_days_until_rent", "get_structured_info"]

/-- The four tools into whose arguments `call_tool_node` force-injects
the state user id (agent_graph.py lines 302-316). -/
def scoped_tool_names : List String :=
  ["firestore_search", "set_rent_reminder", "get_days_until_rent",
   "get_structured_info"]

/-- Module-level bindings of `agent_graph.py`, the domain of the
`globals()` lookup in the unknown-tool fallback of `call_tool_node`
(agent_graph.py lines 322-329). -/
def agentGlobals : List String :=
  ["operator", "Annotated", "TypedDict", "List", "Dict", "Literal",
   "StateGraph", "START", "END", "BaseMessage", "AIMessage", "HumanMessage",
   "ToolMessage", "BaseModel", "Field", "tool", "ChatVertexAI", "ToolNode",
   "RunnableWithMessageHistory", "BaseChatMessageHistory", "datetime",
   "relativedelta", "firestore", "firestore_search", "summarize_agreement",
   "extract_structured_info", "set_rent_reminder", "get_structured_info",
   "PROJECT_ID", "GEMINI_MODEL_NAME", "GEMINI_LOCATION", "InMemoryHistory",
   "store", "service_account", "Path", "creds_path", "credentials", "db",
   "get_session_history", "DaysUntilRentInput", "get_days_until_rent",
   "AgentState", "tools", "llm", "system_prompt", "llm_with_tools",
   "call_llm_node", "call_tool_node", "should_continue", "graph_builder",
   "graph_agent", "agent_executor"]

/-- An actually performed call: which callable ran and the keyword
arguments it received. -/
structure Invocation where
  callee : String
  args : List (String × String)
deriving DecidableEq

/-- Dispatch of one tool call by `call_tool_node` (agent_graph.py lines
300-331): the branch ladder on the tool name decides which callable runs
and which arguments it receives. For the four user-scoped tools the state
user id is assigned into the args dict first; for the two extraction
tools only `agreement_text` is forwarded; an unrecognized name that is a
module-level global is called with the model-supplied args unchanged;
otherwise no call happens (`none`). -/
def dispatchToolCall (userId : String) (tc : ToolCall) : Option Invocation :=
  if tc.name = "firestore_search" then
    some ⟨tc.name, setArg tc.args "user_id" userId⟩
  else if tc.name = "set_rent_reminder" then
    some ⟨tc.name, setArg tc.args "user_id" userId⟩
  else if tc.name = "get_days_until_rent" then
    some ⟨tc.name, setArg tc.args "user_id" userId⟩
  else if tc.name = "get_structured_info" then
    some ⟨tc.name, setArg tc.args "user_id" userId⟩
  else if tc.name = "summarize_agreement" then
    some ⟨tc.name, [("agreement_text", getArg tc.args "agreement_text" "")]⟩
  else if tc.name = "extract_structured_info" then
    some ⟨tc.name, [("agreement_text", getArg tc.args "agreement_text" "")]⟩
  else if tc.name ∈ agentGlobals then
    some ⟨tc.name, tc.args⟩
  else
    none

/-- Oracle for the bodies of the tool callables: given the callee name
and the arguments actually passed, it returns the result string or
raises (`Except.error` carrying `str(tool_error)`). -/
structure ToolEnv where
  run : String → List (String × String) → Except String String

/-- Execution of one tool call inside the per-call `try` of
`call_tool_node` (agent_graph.py lines 300-339): the dispatched call
either returns a `ToolMessage` with the result, or the raised error is
caught and converted into an error-text `ToolMessage`; an unknown name
yields the not-found error text without raising. -/
def execToolCall (env : ToolEnv) (userId : String) (tc : ToolCall) : Message :=
  match dispatchToolCall userId tc with
  | none => Message.tool ("Error: Tool \x27" ++ tc.name ++ "\x27 not found") tc.id
  | some inv =>
    match env.run inv.callee inv.args with
    | Except.ok r => Message.tool r tc.id
    | Except.error e =>
      Message.tool ("Error executing tool \x27" ++ tc.name ++ "\x27: " ++ e) tc.id

/-- The `tools` graph node (`call_tool_node`, agent_graph.py lines
272-346): validates that the last message carries tool calls, then maps
the per-call execution over the batch, one `ToolMessage` per requested
call. -/
def call_tool_node (env : ToolEnv) (state : AgentState) : List Message :=
  match state.messages.getLast? with
  | none => [Message.tool "Error: No messages to process" "error"]
  | some (Message.ai _ tcs) =>
    if tcs.isEmpty then
      [Message.tool "Error: No tool calls to execute" "error"]
    else
      tcs.map (execToolCall env state.user_id)
  | some _ => [Message.tool "Error: No tool calls to execute" "error"]

/-- The fixed system instruction prepended to the turn history before the
tool-bound model call (agent_graph.py lines 143-191), transcribed line by
line. -/
def system_prompt : String :=
  String.intercalate "\n"
    ["",
     "You are a helpful AI assistant for rental agreement analysis. You have several specialized tools available.",
     "",
     "🎯 INTELLIGENT TOOL SELECTION - UNDERSTAND THE USER\x27S INTENT:",
     "",
     "1. **For SPECIFIC DATA queries** → Use get_structured_info:",
     "   - When user wants concrete facts: amounts, dates, names, addresses",
     "   - Intent: Getting specific information that\x27s already extracted",
     "   - Examples: rent amount, due date, landlord name, property address, lease duration, security deposit",
     "   - Key concept: \"What is...?\", \"How much...?\", \"When is...?\", \"Who is...?\", \"Where is...?\"",
     "",
     "2. **For ANALYSIS & INTERPRETATION queries** → Use firestore_search:",
     "   - When user wants understanding, analysis, or concerns about the contract",
     "   - Intent: Analyzing content for problems, risks, unusual terms, explanations",
     "   - Semantic concepts: issues, problems, concerns, risks, dangers, red flags, warnings, unfair terms, harsh clauses, problematic sections, things to watch out for, potential issues, concerning aspects, risky parts",
     "   - Key concept: \"What should I worry about?\", \"Are there problems?\", \"Explain this clause\", \"Is this normal?\"",
     "",
     "3. **For TIME CALCULATIONS** → Use get_days_until_rent:",
     "   - When user wants to know time remaining until payment",
     "   - Intent: Calculating days/time until next rent due",
     "   - Key concept: \"How long until...\", \"When is next...\", \"Days remaining...\"",
     "",
     "4. **For SETTING REMINDERS** → Use set_rent_reminder:",
     "   - When user wants to create notifications or alerts",
     "   - Intent: Setting up future reminders",
     "   - Key concept: \"Remind me\", \"Set alert\", \"Notify me\", \"Don\x27t let me forget\"",
     "",
     "🧠 SEMANTIC UNDERSTANDING RULES:",
     "- THINK about what the user is trying to accomplish, not just the exact words",
     "- \"dangers\" = \"red flags\" = \"risks\" = \"concerns\" = \"problems\" = \"issues\" → ALL use firestore_search",
     "- \"rent amount\" = \"how much rent\" = \"monthly payment\" → ALL use get_structured_info  ",
     "- \"due date\" = \"when is rent due\" = \"payment date\" → ALL use get_structured_info",
     "- Use your intelligence to map similar concepts to the right tool",
     "- If you\x27re unsure, think: \"Is the user asking for a specific fact or asking for analysis?\"",
     "",
     "🚨 CRITICAL RULES:",
     "- NEVER use exact phrase matching - understand the MEANING and INTENT",
     "- Documents are already uploaded and processed - never say \"please upload\"",
     "- If get_structured_info doesn\x27t have specific data, then try firestore_search",
     "- Focus on helping the user understand their rental agreement",
     "",
     "📋 AVAILABLE TOOLS:",
     "1. get_structured_info - Extract specific facts and data points",
     "2. firestore_search - Analyze, interpret, and find concerning content  ",
     "3. get_days_until_rent - Calculate time until rent payment",
     "4. set_rent_reminder - Create payment reminders",
     "",
     "Remember: Be intelligent about tool selection - understand INTENT, not just keywords!",
     ""]

/-- The four capabilities the system instruction lists in its numbered
AVAILABLE TOOLS section (agent_graph.py lines 184-188). -/
def prompt_tool_list : List String :=
  ["get_structured_info", "firestore_search", "get_days_until_rent",
   "set_rent_reminder"]

/-- Oracle for the hosted model: `invokePlain` is `llm.invoke(prompt)`,
`invokeWithTools` is `llm_with_tools.invoke(messages)`; `Except.error`
carries `str(e)` of a raised exception. -/
structure LlmEnv where
  invokePlain : String → Except String Message
  invokeWithTools : List Message → Except String Message

/-- Backwards search for the most recent `HumanMessage` before the final
tool message (agent_graph.py lines 214-220), with the hard-coded default. -/
def findUserQuestion (msgs : List Message) : String :=
  match msgs.dropLast.reverse.find? (fun m =>
      match m with
      | Message.human _ => true
      | _ => false) with
  | some (Message.human c) => c
  | _ => "the rental agreement question"

/-- The second, explanation prompt composed when returning from a tool
(agent_graph.py lines 226-237): it embeds the user question and the raw
tool result. -/
def demystify_prompt (q toolResult : String) : String :=
  "\nThe user asked: \"" ++ q ++
  "\"\n\nI retrieved the following information from their documents:\n---\n" ++
  toolResult ++
  "\n---\n\nBased on this information, please answer the user\x27s question in a simple, clear, and demystified way.\nSimplify complex legal terms and complex logic in a simple way such that even people with no legal experience and basic English knowledge should be able to understand.\nIf the information is not relevant, say that you cannot help with this specific question.\n"

/-- Python `s.lower()` modelled characterwise (the substrings matched
against are ASCII, where the two agree). -/
def lowerStr (s : String) : String :=
  ⟨s.data.map Char.toLower⟩

/-- Quota detection by substring match on the exception text
(agent_graph.py lines 245 and 266). -/
def isQuotaError (e : String) : Bool :=
  strContains e "429" || strContains e "Resource exhausted" ||
  strContains (lowerStr e) "quota"

/-- Fallback text of the demystification handler when the model fails
with a quota-like error (agent_graph.py line 246): it embeds the raw
tool result. -/
def quota_fallback_demystify (toolResult : String) : String :=
  "I found the information you requested:\n\n" ++ toolResult ++
  "\n\nNote: I\x27m experiencing high demand right now, so I provided the raw information. Please try asking again in a moment for a more detailed explanation."

/-- Fallback text of the demystification handler for other model errors
(agent_graph.py line 248): it embeds the raw tool result. -/
def plain_fallback_demystify (toolResult : String) : String :=
  "Based on your rental agreement:\n\n" ++ toolResult

/-- Canned quota apology of the outer handler (agent_graph.py line 267). -/
def quota_apology : String :=
  "I\x27m experiencing high demand right now. Please try your question again in a moment, and I\x27ll be happy to help you analyze your rental agreement."

/-- Canned generic apology of the outer handler (agent_graph.py line 269). -/
def generic_apology : String :=
  "I encountered an error processing your request. Please try rephrasing your question or try again in a moment."

/-- The `llm_node` graph node (`call_llm_node`, agent_graph.py lines
196-270). Empty history returns a fixed notice. A final `ToolMessage`
takes the demystification path: the plain model is invoked on the
explanation prompt; a raised model error is caught and mapped to a
fallback that embeds the tool result. Any other final message takes the
tool-selection path: the tool-bound model is invoked on the system
instruction plus the history; a raised model error is caught and mapped
to one of the two canned apologies. -/
def call_llm_node (lenv : LlmEnv) (state : AgentState) : List Message :=
  match state.messages.getLast? with
  | none => [Message.ai "I didn\x27t receive any message to process." []]
  | some (Message.tool toolResult _) =>
    match lenv.invokePlain
        (demystify_prompt (findUserQuestion state.messages) toolResult) with
    | Except.ok response => [response]
    | Except.error e =>
      if isQuotaError e then
        [Message.ai (quota_fallback_demystify toolResult) []]
      else
        [Message.ai (plain_fallback_demystify toolResult) []]
  | some _ =>
    match lenv.invokeWithTools (Message.system system_prompt :: state.messages) with
    | Except.ok response => [response]
    | Except.error e =>
      if isQuotaError e then
        [Message.ai quota_apology []]
      else
        [Message.ai generic_apology []]

/-- The conditional-edge routing function (`should_continue`,
agent_graph.py lines 349-354): it inspects only `state.messages[-1]` and
returns the literal `"tools"` when that turn is an `AIMessage` with a
non-empty `tool_calls` list, `"end"` otherwise; indexing an empty message
list raises (`Except.error`). -/
def should_continue (state : AgentState) : Except String String :=
  match state.messages.getLast? with
  | none => Except.error "IndexError: list index out of range"
  | some (Message.ai _ tcs) =>
    Except.ok (if tcs.isEmpty then "end" else "tools")
  | some _ => Except.ok "end"

/-- Nodes of the compiled graph: the virtual START, the two added nodes
`llm_node` and `tools`, and the terminal END (agent_graph.py lines
357-379). -/
inductive GraphNode where
  | start
  | llm_node
  | tools_node
  | endNode
deriving DecidableEq

/-- The route map of `add_conditional_edges` (agent_graph.py lines
369-376): `"tools"` goes to the tools node and `"end"` to END; any other
label is unmapped. -/
def route_target (r : String) : Option GraphNode :=
  if r = "tools" then some GraphNode.tools_node
  else if r = "end" then some GraphNode.endNode
  else none

/-- A point of graph execution: the node about to run (or END) and the
accumulated agent state. -/
structure GraphState where
  node : GraphNode
  state : AgentState
deriving DecidableEq

/-- One transition of the compiled graph: START enters `llm_node`
(line 366); `llm_node` appends its returned messages under the
`operator.add` reducer and follows the conditional edge chosen by
`should_continue` on the updated state (lines 369-376); the tools node
appends its results and returns to `llm_node` (line 379); END is
terminal. `none` models a crashed run (a routing error or an unmapped
route label, neither of which is reachable). -/
def graph_step (lenv : LlmEnv) (tenv : ToolEnv) (gs : GraphState) :
    Option GraphState :=
  match gs.node with
  | GraphNode.start => some ⟨GraphNode.llm_node, gs.state⟩
  | GraphNode.llm_node =>
    let out := call_llm_node lenv gs.state
    let s' : AgentState := ⟨gs.state.messages ++ out, gs.state.user_id⟩
    match should_continue s' with
    | Except.error _ => none
    | Except.ok r => (route_target r).map (fun nd => ⟨nd, s'⟩)
  | GraphNode.tools_node =>
    let out := call_tool_node tenv gs.state
    some ⟨GraphNode.llm_node, ⟨gs.state.messages ++ out, gs.state.user_id⟩⟩
  | GraphNode.endNode => some gs

/-- Iterated graph execution: the point reached after `n` transitions,
`none` once a transition crashed. -/
def graph_run (lenv : LlmEnv) (tenv : ToolEnv) (init : GraphState) :
    Nat → Option GraphState
  | 0 => some init
  | n + 1 => (graph_run lenv tenv init n).bind (graph_step lenv tenv)

/-- C1, counterexample. The claim quantifies over every tool invocation
executed by `call_tool_node`, but two dispatch paths violate it: the
`summarize_agreement` branch passes only `agreement_text`, so the tool
does not receive the state user id at all; and the unknown-tool fallback
resolves a name through the module globals and passes the model-supplied
arguments verbatim, so there the model-supplied `user_id` reaches the
callee and two model outputs differing only in that field produce
different invocations. -/
theorem dispatch_override_cx :
    (dispatchToolCall "state-user"
        ⟨"summarize_agreement",
         [("agreement_text", "the lease"), ("user_id", "model-user")], "1"⟩ =
      some ⟨"summarize_agreement", [("agreement_text", "the lease")]⟩)
    ∧ (dispatchToolCall "state-user"
        ⟨"get_session_history", [("user_id", "model-A")], "2"⟩ =
      some ⟨"get_session_history", [("user_id", "model-A")]⟩)
    ∧ dispatchToolCall "state-user"
        ⟨"get_session_history", [("user_id", "model-A")], "2"⟩ ≠
      dispatchToolCall "state-user"
        ⟨"get_session_history", [("user_id", "model-B")], "2"⟩ := by
  decide

/-- C1 (amended): for every tool call whose name is one of the six bound
tools, the invocation actually dispatched is independent of any
model-supplied `user_id` argument, and for the four user-scoped tools the
arguments actually passed carry the state user id. -/
theorem dispatch_override_scoped (userId v : String) (tc : ToolCall)
    (h : tc.name ∈ tools) :
    dispatchToolCall userId { tc with args := setArg tc.args "user_id" v } =
      dispatchToolCall userId tc
    ∧ (tc.name ∈ scoped_tool_names →
        ∃ inv, dispatchToolCall userId tc = some inv ∧
          getArg inv.args "user_id" "" = userId) := by
  have hne : ("user_id" : String) ≠ "agreement_text" := by decide
  simp only [tools, List.mem_cons, List.not_mem_nil, or_false] at h
  rcases h with h | h | h | h | h | h
  · exact ⟨by simp [dispatchToolCall, h, setArg_setArg_same],
      fun _ => ⟨⟨tc.name, setArg tc.args "user_id" userId⟩,
        by simp [dispatchToolCall, h], getArg_setArg_same _ _ _ _⟩⟩
  · refine ⟨by simp [dispatchToolCall, h, getArg_setArg_ne _ _ _ _ _ hne], ?_⟩
    intro hmem
    rw [h] at hmem
    simp [scoped_tool_names] at hmem
  · refine ⟨by simp [dispatchToolCall, h, getArg_setArg_ne _ _ _ _ _ hne], ?_⟩
    intro hmem
    rw [h] at hmem
    simp [scoped_tool_names] at hmem
  · exact ⟨by simp [dispatchToolCall, h, setArg_setArg_same],
      fun _ => ⟨⟨tc.name, setArg tc.args "user_id" userId⟩,
        by simp [dispatchToolCall, h], getArg_setArg_same _ _ _ _⟩⟩
  · exact ⟨by simp [dispatchToolCall, h, setArg_setArg_same],
      fun _ => ⟨⟨tc.name, setArg tc.args "user_id" userId⟩,
        by simp [dispatchToolCall, h], getArg_setArg_same _ _ _ _⟩⟩
  · exact ⟨by simp [dispatchToolCall, h, setArg_setArg_same],
      fun _ => ⟨⟨tc.name, setArg tc.args "user_id" userId⟩,
        by simp [dispatchToolCall, h], getArg_setArg_same _ _ _ _⟩⟩

/-- C1, witness: the amended theorem evaluated on a concrete
`firestore_search` call. -/
theorem dispatch_override_scoped_witness :
    dispatchToolCall "U"
        ⟨"firestore_search", setArg [("query", "q")] "user_id" "V", "1"⟩ =
      dispatchToolCall "U" ⟨"firestore_search", [("query", "q")], "1"⟩ :=
  (dispatch_override_scoped "U" "V" ⟨"firestore_search", [("query", "q")], "1"⟩
    (by decide)).1

/-- C2: a final assistant turn with an empty `tool_calls` list routes to
`"end"`, the conditional-edge map sends `"end"` to END, and END is
absorbing, so the tools node is never re-entered and that turn is the
final answer. -/
theorem no_tool_calls_terminal (s : AgentState) (c : String)
    (h : s.messages.getLast? = some (Message.ai c [])) :
    should_continue s = Except.ok "end"
    ∧ route_target "end" = some GraphNode.endNode
    ∧ (∀ lenv tenv gs, gs.node = GraphNode.endNode →
        graph_step lenv tenv gs = some gs) := by
  refine ⟨by simp [should_continue, h], by decide, ?_⟩
  intro lenv tenv gs hgs
  cases gs with
  | mk nd st =>
    cases hgs
    rfl

/-- C2, witness: the routing evaluated on a concrete state whose last
turn is an assistant message without tool calls. -/
theorem no_tool_calls_terminal_witness :
    should_continue ⟨[Message.human "hi", Message.ai "answer" []], "u"⟩ =
      Except.ok "end" :=
  (no_tool_calls_terminal ⟨[Message.human "hi", Message.ai "answer" []], "u"⟩
    "answer" rfl).1

/-- C3: on a batch of tool calls, `call_tool_node` produces exactly one
`ToolMessage` per requested call by mapping the per-call execution over
the batch, and a raised error in one call is caught there and converted
into an error-text result, so no failure aborts the batch or the
request. -/
theorem tool_errors_isolated (env : ToolEnv) (s : AgentState) (c : String)
    (tcs : List ToolCall)
    (h : s.messages.getLast? = some (Message.ai c tcs)) (hne : tcs ≠ []) :
    call_tool_node env s = tcs.map (execToolCall env s.user_id)
    ∧ (call_tool_node env s).length = tcs.length
    ∧ (∀ tc inv e, dispatchToolCall s.user_id tc = some inv →
        env.run inv.callee inv.args = Except.error e →
        execToolCall env s.user_id tc =
          Message.tool ("Error executing tool \x27" ++ tc.name ++ "\x27: " ++ e)
            tc.id) := by
  have h1 : call_tool_node env s = tcs.map (execToolCall env s.user_id) := by
    simp [call_tool_node, h, hne]
  refine ⟨h1, by simp [h1], ?_⟩
  intro tc inv e hd hr
  simp [execToolCall, hd, hr]

/-- C3, witness: a two-call batch in which the first tool raises; both
calls still produce their own `ToolMessage`. -/
theorem tool_errors_isolated_witness :
    call_tool_node
        ⟨fun n _ => if n = "get_structured_info" then Except.error "boom"
          else Except.ok "fine"⟩
        ⟨[Message.ai "x"
            [⟨"get_structured_info", [], "7"⟩, ⟨"firestore_search", [], "8"⟩]],
          "u"⟩ =
      [⟨"get_structured_info", [], "7"⟩, ⟨"firestore_search", [], "8"⟩].map
        (execToolCall
          ⟨fun n _ => if n = "get_structured_info" then Except.error "boom"
            else Except.ok "fine"⟩ "u") :=
  (tool_errors_isolated
    ⟨fun n _ => if n = "get_structured_info" then Except.error "boom"
      else Except.ok "fine"⟩
    ⟨[Message.ai "x"
        [⟨"get_structured_info", [], "7"⟩, ⟨"firestore_search", [], "8"⟩]],
      "u"⟩
    "x" [⟨"get_structured_info", [], "7"⟩, ⟨"firestore_search", [], "8"⟩]
    rfl (by decide)).1

/-- C5, counterexample: `summarize_agreement` is bound to the model but
absent from the four capabilities listed in the system instruction, and
`call_tool_node` executes it when named, so a tool outside the four can
be named and executed. -/
theorem four_capabilities_cx :
    "summarize_agreement" ∈ tools
    ∧ "summarize_agreement" ∉ prompt_tool_list
    ∧ dispatchToolCall "u" ⟨"summarize_agreement", [("agreement_text", "x")], "1"⟩ =
        some ⟨"summarize_agreement", [("agreement_text", "x")]⟩ := by
  decide

/-- C5 (amended): the system instruction's AVAILABLE TOOLS section names
exactly four capabilities, each of them bound, but the bound tool set has
six members; the two extraction tools outside the four can be named by
the model and are executed by the dispatcher. -/
theorem four_capabilities_amended :
    tools.length = 6
    ∧ prompt_tool_list.length = 4
    ∧ (∀ t ∈ prompt_tool_list, t ∈ tools ∧ strContains system_prompt t = true)
    ∧ "summarize_agreement" ∈ tools ∧ "extract_structured_info" ∈ tools
    ∧ "summarize_agreement" ∉ prompt_tool_list
    ∧ "extract_structured_info" ∉ prompt_tool_list
    ∧ (dispatchToolCall "u"
        ⟨"summarize_agreement", [("agreement_text", "t")], "1"⟩).isSome = true
    ∧ (dispatchToolCall "u"
        ⟨"extract_structured_info", [("agreement_text", "t")], "1"⟩).isSome = true := by
  set_option maxRecDepth 100000 in decide

/-- C4, counterexample: when the plain model fails with a quota error on
the demystification path, the returned assistant turn embeds the raw tool
result, so two failures with different tool results give different turns
and neither equals the canned quota apology; the fallback is therefore
not a canned apology string. -/
theorem llm_fallback_cx :
    call_llm_node ⟨fun _ => Except.error "429", fun _ => Except.error "429"⟩
        ⟨[Message.human "q", Message.tool "RESULT-A" "1"], "u"⟩ =
      [Message.ai (quota_fallback_demystify "RESULT-A") []]
    ∧ call_llm_node ⟨fun _ => Except.error "429", fun _ => Except.error "429"⟩
        ⟨[Message.human "q", Message.tool "RESULT-B" "1"], "u"⟩ =
      [Message.ai (quota_fallback_demystify "RESULT-B") []]
    ∧ quota_fallback_demystify "RESULT-A" ≠ quota_fallback_demystify "RESULT-B"
    ∧ quota_fallback_demystify "RESULT-A" ≠ quota_apology
    ∧ strContains (quota_fallback_demystify "RESULT-A") "RESULT-A" = true := by
  set_option maxRecDepth 100000 in decide

/-- C4 (amended): a raised model error inside the LLM node never
propagates; the node returns a single fallback assistant turn. On the
tool-selection path the fallback is one of the two canned apologies,
chosen by the quota substring match; on the demystification path the
fallback embeds the raw tool result instead of being canned. -/
theorem llm_fallback_degrades (lenv : LlmEnv) (s : AgentState) (e : String) :
    (∀ c i, s.messages.getLast? = some (Message.tool c i) →
      lenv.invokePlain (demystify_prompt (findUserQuestion s.messages) c) =
        Except.error e →
      call_llm_node lenv s =
        [Message.ai (if isQuotaError e then quota_fallback_demystify c
          else plain_fallback_demystify c) []])
    ∧ (∀ m, s.messages.getLast? = some m →
        (∀ c i, m ≠ Message.tool c i) →
        lenv.invokeWithTools (Message.system system_prompt :: s.messages) =
          Except.error e →
        call_llm_node lenv s =
          [Message.ai (if isQuotaError e then quota_apology
            else generic_apology) []]) := by
  constructor
  · intro c i h hE
    cases hq : isQuotaError e <;> simp [call_llm_node, h, hE, hq]
  · intro m h hm hE
    cases m with
    | tool c i => exact absurd rfl (hm c i)
    | human c => cases hq : isQuotaError e <;> simp [call_llm_node, h, hE, hq]
    | ai c tcs => cases hq : isQuotaError e <;> simp [call_llm_node, h, hE, hq]
    | system c => cases hq : isQuotaError e <;> simp [call_llm_node, h, hE, hq]

/-- C4, witness: the amended theorem evaluated on a concrete run whose
tool-bound model call raises a non-quota error. -/
theorem llm_fallback_degrades_witness :
    (call_llm_node ⟨fun _ => Except.error "boom", fun _ => Except.error "boom"⟩
        ⟨[Message.human "q"], "u"⟩ =
      [Message.ai (if isQuotaError "boom" then quota_apology
        else generic_apology) []])
    ∧ isQuotaError "boom" = false :=
  ⟨(llm_fallback_degrades
      ⟨fun _ => Except.error "boom", fun _ => Except.error "boom"⟩
      ⟨[Message.human "q"], "u"⟩ "boom").2
      (Message.human "q") rfl (by intro c i; simp) rfl,
    by decide⟩

/-- Helper: the quota demystification fallback is never the bare tool
result (a non-empty apology note is appended around it). -/
theorem quota_fallback_demystify_ne (c : String) :
    quota_fallback_demystify c ≠ c := by
  intro h
  have h1 := congrArg String.length h
  rw [quota_fallback_demystify, String.length_append, String.length_append] at h1
  have h2 :
      0 < ("I found the information you requested:\n\n" : String).length := by
    decide
  omega

/-- Helper: the plain demystification fallback is never the bare tool
result (a non-empty preamble is prepended). -/
theorem plain_fallback_demystify_ne (c : String) :
    plain_fallback_demystify c ≠ c := by
  intro h
  have h1 := congrArg String.length h
  rw [plain_fallback_demystify, String.length_append] at h1
  have h2 : 0 < ("Based on your rental agreement:\n\n" : String).length := by
    decide
  omega

/-- C6: on a final tool-result turn the LLM node composes the
demystification prompt — which embeds the tool result and the most
recent user question — and invokes the plain model on it; the model's
response is the returned turn, and even on model failure the returned
turn is never the bare raw tool output (the fallback wraps it in
non-empty framing text). -/
theorem demystify_explains (lenv : LlmEnv) (s : AgentState) (c i : String)
    (h : s.messages.getLast? = some (Message.tool c i)) :
    strContains (demystify_prompt (findUserQuestion s.messages) c) c = true
    ∧ strContains (demystify_prompt (findUserQuestion s.messages) c)
        (findUserQuestion s.messages) = true
    ∧ (∀ resp,
        lenv.invokePlain (demystify_prompt (findUserQuestion s.messages) c) =
          Except.ok resp →
        call_llm_node lenv s = [resp])
    ∧ (∀ e,
        lenv.invokePlain (demystify_prompt (findUserQuestion s.messages) c) =
          Except.error e →
        ∃ m, call_llm_node lenv s = [Message.ai m []] ∧ m ≠ c
          ∧ strContains m c = true) := by
  refine ⟨?_, ?_, ?_, ?_⟩
  · exact strContains_of_parts _ c _
  · have hx := strContains_of_parts "\nThe user asked: \""
      (findUserQuestion s.messages)
      ("\"\n\nI retrieved the following information from their documents:\n---\n" ++
        c ++
        "\n---\n\nBased on this information, please answer the user\x27s question in a simple, clear, and demystified way.\nSimplify complex legal terms and complex logic in a simple way such that even people with no legal experience and basic English knowledge should be able to understand.\nIf the information is not relevant, say that you cannot help with this specific question.\n")
    rw [demystify_prompt]
    rw [show ∀ a b p q r : String,
        a ++ b ++ p ++ q ++ r = a ++ b ++ (p ++ q ++ r) from
      fun a b p q r => by simp [String.append_assoc]]
    exact hx
  · intro resp hE
    simp [call_llm_node, h, hE]
  · intro e hE
    cases hq : isQuotaError e with
    | true =>
      refine ⟨quota_fallback_demystify c, by simp [call_llm_node, h, hE, hq],
        quota_fallback_demystify_ne c, ?_⟩
      exact strContains_of_parts _ c _
    | false =>
      refine ⟨plain_fallback_demystify c, by simp [call_llm_node, h, hE, hq],
        plain_fallback_demystify_ne c, ?_⟩
      rw [show plain_fallback_demystify c =
          "Based on your rental agreement:\n\n" ++ c ++ "" from
        by rw [String.append_empty]; rfl]
      exact strContains_of_parts _ c _

/-- C6, witness: the demystification path evaluated on a concrete state
and a concrete succeeding model. -/
theorem demystify_explains_witness :
    call_llm_node
        ⟨fun _ => Except.ok (Message.ai "explained" []),
          fun _ => Except.ok (Message.ai "explained" [])⟩
        ⟨[Message.human "q", Message.tool "raw result" "1"], "u"⟩ =
      [Message.ai "explained" []] :=
  ((demystify_explains
    ⟨fun _ => Except.ok (Message.ai "explained" []),
      fun _ => Except.ok (Message.ai "explained" [])⟩
    ⟨[Message.human "q", Message.tool "raw result" "1"], "u"⟩
    "raw result" "1" rfl).2.2.1) (Message.ai "explained" []) rfl

/-- Deterministic model stub that names the same tool call on every
invocation, on both model entry points. -/
def loop_tc : ToolCall := ⟨"get_structured_info", [("query", "q")], "1"⟩

/-- The assistant turn the stub model always produces. -/
def loop_ai : Message := Message.ai "calling tool" [loop_tc]

/-- The stub model environment. -/
def loop_lenv : LlmEnv := ⟨fun _ => Except.ok loop_ai, fun _ => Except.ok loop_ai⟩

/-- A tool environment whose calls always succeed. -/
def loop_tenv : ToolEnv := ⟨fun _ _ => Except.ok "tool result"⟩

/-- Initial point of the run: START with a single user turn. -/
def loop_init : GraphState :=
  ⟨GraphNode.start, ⟨[Message.human "question"], "user-1"⟩⟩

/-- Invariant of the stubbed run: execution is always at START (before
the first turn), at the LLM node with a user or tool turn last, or at
the tools node with the stub's tool-calling turn last — never at END. -/
def loopInv (gs : GraphState) : Prop :=
  (gs.node = GraphNode.start ∧
    ∃ c, gs.state.messages.getLast? = some (Message.human c))
  ∨ (gs.node = GraphNode.llm_node ∧
      ((∃ c, gs.state.messages.getLast? = some (Message.human c)) ∨
       (∃ c i, gs.state.messages.getLast? = some (Message.tool c i))))
  ∨ (gs.node = GraphNode.tools_node ∧
      gs.state.messages.getLast? = some loop_ai)

/-- One stubbed transition preserves the invariant and never crashes. -/
theorem loopInv_step (gs : GraphState) (h : loopInv gs) :
    ∃ gs', graph_step loop_lenv loop_tenv gs = some gs' ∧ loopInv gs' := by
  obtain ⟨nd, st⟩ := gs
  rcases h with ⟨h1, c, h2⟩ | ⟨h1, h2 | h2⟩ | ⟨h1, h2⟩ <;>
    simp only at h1 h2 ⊢ <;> subst h1
  · exact ⟨⟨GraphNode.llm_node, st⟩, rfl,
      Or.inr (Or.inl ⟨rfl, Or.inl ⟨c, h2⟩⟩)⟩
  · obtain ⟨c, h2⟩ := h2
    have hout : call_llm_node loop_lenv st = [loop_ai] := by
      simp [call_llm_node, h2, loop_lenv]
    refine ⟨⟨GraphNode.tools_node, ⟨st.messages ++ [loop_ai], st.user_id⟩⟩, ?_, ?_⟩
    · simp [graph_step, hout, should_continue, List.getLast?_concat, loop_ai,
        loop_tc, route_target]
    · exact Or.inr (Or.inr ⟨rfl, by simp [List.getLast?_concat]⟩)
  · obtain ⟨c, i, h2⟩ := h2
    have hout : call_llm_node loop_lenv st = [loop_ai] := by
      simp [call_llm_node, h2, loop_lenv]
    refine ⟨⟨GraphNode.tools_node, ⟨st.messages ++ [loop_ai], st.user_id⟩⟩, ?_, ?_⟩
    · simp [graph_step, hout, should_continue, List.getLast?_concat, loop_ai,
        loop_tc, route_target]
    · exact Or.inr (Or.inr ⟨rfl, by simp [List.getLast?_concat]⟩)
  · have hout : call_tool_node loop_tenv st = [Message.tool "tool result" "1"] := by
      simp [call_tool_node, h2, loop_ai, loop_tc, execToolCall, dispatchToolCall,
        loop_tenv, setArg]
    refine ⟨⟨GraphNode.llm_node,
      ⟨st.messages ++ [Message.tool "tool result" "1"], st.user_id⟩⟩, ?_, ?_⟩
    · simp [graph_step, hout]
    · exact Or.inr (Or.inl ⟨rfl,
        Or.inr ⟨"tool result", "1", by simp [List.getLast?_concat]⟩⟩)

/-- C7: with the deterministic always-tool-calling stub, the graph never
reaches END — after every number of transitions the run is still alive at
a non-terminal node, so the loop as constructed imposes no iteration
cap. -/
theorem agent_loop_unbounded :
    ∀ n, ∃ gs, graph_run loop_lenv loop_tenv loop_init n = some gs
      ∧ gs.node ≠ GraphNode.endNode := by
  have key : ∀ n, ∃ gs,
      graph_run loop_lenv loop_tenv loop_init n = some gs ∧ loopInv gs := by
    intro n
    induction n with
    | zero => exact ⟨loop_init, rfl, Or.inl ⟨rfl, "question", rfl⟩⟩
    | succ n ih =>
      obtain ⟨gs, hrun, hinv⟩ := ih
      obtain ⟨gs', hstep, hinv'⟩ := loopInv_step gs hinv
      exact ⟨gs', by simp [graph_run, hrun, hstep], hinv'⟩
  intro n
  obtain ⟨gs, hrun, hinv⟩ := key n
  refine ⟨gs, hrun, ?_⟩
  rcases hinv with ⟨h1, _⟩ | ⟨h1, _⟩ | ⟨h1, _⟩ <;> simp [h1]

/-- The chunking comprehension of the upload pipeline
(`integrated_server.py` line 205 and `main.py` line 110):
`[document_text[i:i + 1000] for i in range(0, len(document_text), 1000)]`,
on the code-point list of the document text. `range(0, L, 1000)` has
`(L + 999) / 1000` elements starting at 0 with step 1000, and the slice
`t[i:i + 1000]` is `(t.drop i).take 1000`. -/
def upload_chunks (t : List Char) : List (List Char) :=
  (List.range' 0 ((t.length + 999) / 1000) 1000).map
    (fun i => (t.drop i).take 1000)

theorem upload_chunks_nil : upload_chunks [] = [] := by
  simp [upload_chunks]

/-- Shifting the start of a `range'` is mapping the shift over it. -/
theorem range'_map_shift {α : Type} (f : Nat → α) :
    ∀ (n s step d : Nat),
      (List.range' (s + d) n step).map f =
        (List.range' s n step).map (fun i => f (i + d)) := by
  intro n
  induction n with
  | zero => intro s step d; simp
  | succ n ih =>
    intro s step d
    rw [List.range'_succ, List.range'_succ, List.map_cons, List.map_cons]
    refine congrArg₂ _ (by rw [Nat.add_comm s d]) ?_
    rw [show s + d + step = s + step + d from by omega]
    exact ih (s + step) step d

/-- Peeling off the first window of the chunking comprehension. -/
theorem upload_chunks_cons (t : List Char) (h : t ≠ []) :
    upload_chunks t = t.take 1000 :: upload_chunks (t.drop 1000) := by
  have hL : 1 ≤ t.length := List.length_pos.mpr h
  have hcount : (t.length + 999) / 1000 = (t.length - 1) / 1000 + 1 := by
    rw [Nat.div_eq_sub_div (by omega) (by omega)]
    have heq : t.length + 999 - 1000 = t.length - 1 := by omega
    rw [heq]
  have hcount' : ((t.drop 1000).length + 999) / 1000 = (t.length - 1) / 1000 := by
    rw [List.length_drop]
    rcases le_or_lt t.length 1000 with hle | hlt
    · rw [show t.length - 1000 = 0 from by omega]
      rw [Nat.div_eq_of_lt (by omega), Nat.div_eq_of_lt (by omega)]
    · have heq : t.length - 1000 + 999 = t.length - 1 := by omega
      rw [heq]
  rw [upload_chunks, upload_chunks, hcount, hcount', List.range'_succ,
    List.map_cons, List.drop_zero]
  refine congrArg₂ _ rfl ?_
  have hshift := range'_map_shift (fun i => (t.drop i).take 1000)
    ((t.length - 1) / 1000) 0 1000 1000
  rw [Nat.zero_add] at hshift
  rw [hshift]
  refine List.map_congr_left ?_
  intro i _
  rw [List.drop_drop]
  rw [Nat.add_comm]

/-- Non-empty input yields a non-empty chunk list. -/
theorem upload_chunks_ne_nil (t : List Char) (h : t ≠ []) :
    upload_chunks t ≠ [] := by
  rw [upload_chunks_cons t h]
  exact List.cons_ne_nil _ _

/-- Fuel-indexed induction: every chunk except possibly the last has
length exactly 1000. -/
theorem upload_chunks_full_aux :
    ∀ (n : Nat) (t : List Char), t.length ≤ n →
      ∀ c ∈ (upload_chunks t).dropLast, c.length = 1000 := by
  intro n
  induction n with
  | zero =>
    intro t ht c hc
    have : t = [] := List.eq_nil_of_length_eq_zero (by omega)
    subst this
    simp [upload_chunks_nil] at hc
  | succ n ih =>
    intro t ht c hc
    by_cases hnil : t = []
    · subst hnil
      simp [upload_chunks_nil] at hc
    · rw [upload_chunks_cons t hnil] at hc
      by_cases hd : t.drop 1000 = []
      · rw [hd, upload_chunks_nil] at hc
        simp at hc
      · rw [List.dropLast_cons_of_ne_nil (upload_chunks_ne_nil _ hd)] at hc
        rcases List.mem_cons.mp hc with hc | hc
        · subst hc
          have hlen : 1000 < t.length := by
            by_contra hcon
            exact hd (List.eq_nil_of_length_eq_zero
              (by rw [List.length_drop]; omega))
          rw [List.length_take]
          omega
        · exact ih (t.drop 1000) (by rw [List.length_drop]; omega) c hc

/-- Fuel-indexed induction: the chunks concatenate back to the input. -/
theorem upload_chunks_join_aux :
    ∀ (n : Nat) (t : List Char), t.length ≤ n → (upload_chunks t).flatten = t := by
  intro n
  induction n with
  | zero =>
    intro t ht
    have : t = [] := List.eq_nil_of_length_eq_zero (by omega)
    subst this
    simp [upload_chunks_nil]
  | succ n ih =>
    intro t ht
    by_cases hnil : t = []
    · subst hnil
      simp [upload_chunks_nil]
    · have h1 : 1 ≤ t.length := by
        cases t with
        | nil => exact absurd rfl hnil
        | cons a l => simp
      rw [upload_chunks_cons t hnil, List.flatten_cons,
        ih (t.drop 1000) (by rw [List.length_drop]; omega),
        List.take_append_drop]

/-- Fuel-indexed induction: the last chunk of a non-empty input is
non-empty. -/
theorem upload_chunks_last_aux :
    ∀ (n : Nat) (t : List Char), t.length ≤ n → t ≠ [] →
      ∃ c, (upload_chunks t).getLast? = some c ∧ c ≠ [] := by
  intro n
  induction n with
  | zero =>
    intro t ht hnil
    exact absurd (List.eq_nil_of_length_eq_zero (by omega)) hnil
  | succ n ih =>
    intro t ht hnil
    rw [upload_chunks_cons t hnil]
    by_cases hd : t.drop 1000 = []
    · rw [hd, upload_chunks_nil]
      refine ⟨t.take 1000, rfl, ?_⟩
      rw [Ne, List.take_eq_nil_iff]
      rintro (h | h)
      · exact absurd h (by omega)
      · exact hnil h
    · obtain ⟨c, hc, hcne⟩ := ih (t.drop 1000)
        (by rw [List.length_drop]; omega) hd
      refine ⟨c, ?_, hcne⟩
      cases hrest : upload_chunks (t.drop 1000) with
      | nil => exact absurd hrest (upload_chunks_ne_nil _ hd)
      | cons a l =>
        rw [List.getLast?_cons_cons]
        rw [hrest] at hc
        exact hc

/-- C9: the upload pipeline chunks the extracted text into consecutive
windows at offsets 0, 1000, 2000, ...: every chunk except possibly the
last has length exactly 1000, the chunks concatenate back to the input,
and the last chunk of a non-empty input is non-empty. -/
theorem chunking_exact (t : List Char) (h : t ≠ []) :
    (∀ c ∈ (upload_chunks t).dropLast, c.length = 1000)
    ∧ (upload_chunks t).flatten = t
    ∧ (∃ c, (upload_chunks t).getLast? = some c ∧ c ≠ []) :=
  ⟨upload_chunks_full_aux t.length t (Nat.le_refl _),
   upload_chunks_join_aux t.length t (Nat.le_refl _),
   upload_chunks_last_aux t.length t (Nat.le_refl _) h⟩

/-- C9, witness: the concatenation property evaluated on a concrete
three-character document. -/
theorem chunking_exact_witness :
    (upload_chunks ['a', 'b', 'c']).flatten = ['a', 'b', 'c'] :=
  (chunking_exact ['a', 'b', 'c'] (by decide)).2.1

/-- Proleptic Gregorian leap-year rule, as used by Python `datetime`. -/
def isLeap (y : Nat) : Bool :=
  (y % 4 = 0 && y % 100 ≠ 0) || y % 400 = 0

/-- Month lengths of Python `datetime.date`. -/
def daysInMonth (y m : Nat) : Nat :=
  if m = 2 then (if isLeap y then 29 else 28)
  else if m = 4 ∨ m = 6 ∨ m = 9 ∨ m = 11 then 30
  else 31

/-- Length of a year. -/
def daysInYear (y : Nat) : Nat := if isLeap y then 366 else 365

/-- Days in year `y` strictly before month `m`. -/
def daysBeforeMonth (y : Nat) : Nat → Nat
  | 0 => 0
  | m + 1 => daysBeforeMonth y m + (if m = 0 then 0 else daysInMonth y m)

/-- Days strictly before year `y`. -/
def daysBeforeYear : Nat → Nat
  | 0 => 0
  | y + 1 => daysBeforeYear y + daysInYear y

/-- A calendar date `datetime.date(year, month, day)`. -/
structure Date where
  year : Nat
  month : Nat
  day : Nat
deriving DecidableEq

/-- Validity of a date (what `datetime.date` enforces on construction,
years restricted to naturals). -/
def validDate (dt : Date) : Prop :=
  1 ≤ dt.month ∧ dt.month ≤ 12 ∧ 1 ≤ dt.day ∧
    dt.day ≤ daysInMonth dt.year dt.month

/-- Day serial number of a date; differences of serial numbers are what
Python `(a - b).days` computes. -/
def toOrdinal (dt : Date) : Nat :=
  daysBeforeYear dt.year + daysBeforeMonth dt.year dt.month + dt.day

/-- `date + relativedelta(months=1)`: advance the month with year
rollover, clamping the day to the target month's length. -/
def addOneMonth (dt : Date) : Date :=
  if dt.month = 12 then
    ⟨dt.year + 1, 1, min dt.day (daysInMonth (dt.year + 1) 1)⟩
  else
    ⟨dt.year, dt.month + 1, min dt.day (daysInMonth dt.year (dt.month + 1))⟩

/-- Lexicographic date comparison, `a < b` on `datetime.date`. -/
def dateLt (a b : Date) : Bool :=
  if a.year = b.year then
    (if a.month = b.month then decide (a.day < b.day)
     else decide (a.month < b.month))
  else decide (a.year < b.year)

/-- The digit-concatenation parser of `get_days_until_rent`
(agent_graph.py line 92): `int(str().join(filter(str.isdigit, s)))`,
`none` when the string holds no digit (the caught `ValueError`); digits
are modelled as the ASCII digits. -/
def parse_day (s : String) : Option Nat :=
  let ds := s.data.filter Char.isDigit
  if ds.isEmpty then none
  else some (ds.foldl (fun acc c => 10 * acc + (c.toNat - 48)) 0)

/-- Result template of a successful day calculation (agent_graph.py
line 104). -/
def rent_message (day_of_month days_left : Nat) : String :=
  "There are " ++ toString days_left ++
  " days left until your next rent payment, which is due on the " ++
  toString day_of_month ++ " of the month."

/-- The `get_days_until_rent` tool body after the Firestore fetch
(agent_graph.py lines 76-107). The fetch result is an oracle argument:
`none` models no stored document, `some none` a document without a
`due_date` field, `some (some s)` the stored due-date string; `today` is
`datetime.now().date()`. `today.replace(day=day_of_month)` raises when
the parsed day is out of range for the current month, which the outer
handler converts into the error text. -/
def get_days_until_rent (lookup : Option (Option String)) (today : Date) :
    String :=
  match lookup with
  | none =>
    "No rental agreement found for this user. Please upload a document first."
  | some none => "No rent due date found in your rental agreement."
  | some (some s) =>
    match parse_day s with
    | none =>
      "Could not parse the rent due date. The format is not a simple number."
    | some d =>
      if 1 ≤ d ∧ d ≤ daysInMonth today.year today.month then
        let next0 : Date := ⟨today.year, today.month, d⟩
        let next := if dateLt next0 today then addOneMonth next0 else next0
        rent_message d (toOrdinal next - toOrdinal today)
      else
        "An error occurred while calculating the days left: day is out of range for month"

theorem daysInMonth_ge_28 (y m : Nat) : 28 ≤ daysInMonth y m := by
  unfold daysInMonth
  split
  · split <;> omega
  · split <;> omega

theorem daysBeforeMonth_succ (y m : Nat) (h : 1 ≤ m) :
    daysBeforeMonth y (m + 1) = daysBeforeMonth y m + daysInMonth y m := by
  cases m with
  | zero => omega
  | succ k => simp [daysBeforeMonth]

/-- The twelve month lengths of year `y` sum to the year length. -/
theorem daysBeforeMonth_13 (y : Nat) :
    daysBeforeMonth y 13 = daysInYear y := by
  cases hl : isLeap y <;>
    simp [daysBeforeMonth, daysInMonth, daysInYear, hl]

theorem ordinal_same_month (y m t d : Nat) :
    toOrdinal ⟨y, m, d⟩ - toOrdinal ⟨y, m, t⟩ = d - t := by
  simp only [toOrdinal]
  omega

/-- Serial-number distance from day `t` of a month to day `d` of the
following month. -/
theorem ordinal_next_month (y m t d : Nat) (hm1 : 1 ≤ m) (hm2 : m ≤ 12)
    (hd : d ≤ 28) (ht : t ≤ daysInMonth y m) :
    toOrdinal (addOneMonth ⟨y, m, d⟩) - toOrdinal ⟨y, m, t⟩ =
      daysInMonth y m - t + d := by
  by_cases h12 : m = 12
  · subst h12
    have hmin : min d (daysInMonth (y + 1) 1) = d := by
      have := daysInMonth_ge_28 (y + 1) 1
      omega
    have hA : addOneMonth ⟨y, 12, d⟩ = ⟨y + 1, 1, d⟩ := by
      simp [addOneMonth, hmin]
    have h13 : daysBeforeMonth y 13 = daysInYear y := daysBeforeMonth_13 y
    have h13' : daysBeforeMonth y 13 =
        daysBeforeMonth y 12 + daysInMonth y 12 :=
      daysBeforeMonth_succ y 12 (by omega)
    have hB1 : daysBeforeMonth (y + 1) 1 = 0 := rfl
    have hBY : daysBeforeYear (y + 1) = daysBeforeYear y + daysInYear y := rfl
    rw [hA]
    simp only [toOrdinal, hB1, hBY]
    omega
  · have hmin : min d (daysInMonth y (m + 1)) = d := by
      have := daysInMonth_ge_28 y (m + 1)
      omega
    have hA : addOneMonth ⟨y, m, d⟩ = ⟨y, m + 1, d⟩ := by
      simp [addOneMonth, h12, hmin]
    have hsucc := daysBeforeMonth_succ y m hm1
    rw [hA]
    simp only [toOrdinal]
    omega

/-- C10: for a stored due-date string whose digits concatenate to `d`
with `1 ≤ d ≤ 28`, the tool reports `d - t` days when the current day
`t` satisfies `t ≤ d` (in particular 0 on the due day, the rollover
comparison being strict), and the distance to day `d` of the following
month — `daysInMonth - t + d` — when `t > d`; and the parser
concatenates every digit of the string, so two embedded numbers
concatenate. -/
theorem days_until_rent_correct (y m t : Nat) (s : String) (d : Nat)
    (hv : validDate ⟨y, m, t⟩) (hp : parse_day s = some d)
    (h1 : 1 ≤ d) (h28 : d ≤ 28) :
    get_days_until_rent (some (some s)) ⟨y, m, t⟩ =
      rent_message d (if t ≤ d then d - t else daysInMonth y m - t + d)
    ∧ parse_day "due on the 5th, with a 3 day grace period" = some 53 := by
  refine ⟨?_, by decide⟩
  obtain ⟨hm1, hm2, ht1, ht2⟩ := hv
  replace hm1 : 1 ≤ m := hm1
  replace hm2 : m ≤ 12 := hm2
  replace ht1 : 1 ≤ t := ht1
  replace ht2 : t ≤ daysInMonth y m := ht2
  have hge := daysInMonth_ge_28 y m
  have hcond : 1 ≤ d ∧ d ≤ daysInMonth y m := ⟨h1, by omega⟩
  simp only [get_days_until_rent, hp]
  rw [if_pos hcond]
  by_cases hdt : d < t
  · have hb : dateLt ⟨y, m, d⟩ ⟨y, m, t⟩ = true := by
      simp [dateLt]
      omega
    rw [hb, if_pos rfl, if_neg (show ¬ t ≤ d from by omega)]
    exact congrArg (rent_message d)
      (ordinal_next_month y m t d hm1 hm2 h28 ht2)
  · have hb : dateLt ⟨y, m, d⟩ ⟨y, m, t⟩ = false := by
      simp [dateLt]
      omega
    rw [hb, if_neg (show ¬ (false = true) from by simp),
      if_pos (show t ≤ d from by omega)]
    exact congrArg (rent_message d) (ordinal_same_month y m t d)

/-- C10, witness: the tool evaluated on a concrete date after the due
day, with rollover into the next month. -/
theorem days_until_rent_correct_witness :
    get_days_until_rent (some (some "5")) ⟨2026, 10, 12⟩ =
      rent_message 5
        (if (12 : Nat) ≤ 5 then 5 - 12 else daysInMonth 2026 10 - 12 + 5) :=
  (days_until_rent_correct 2026 10 12 "5" 5
    ⟨by decide, by decide, by decide, by decide⟩ (by decide)
    (by decide) (by decide)).1

/-- C8: the routing decision reads only the last turn, so any two states
whose last messages agree route identically, and on an assistant last
turn the route is `"tools"` exactly when its tool-call list is
non-empty. -/
theorem routing_pure (s1 s2 : AgentState)
    (h : s1.messages.getLast? = s2.messages.getLast?) :
    should_continue s1 = should_continue s2
    ∧ (∀ c tcs, s1.messages.getLast? = some (Message.ai c tcs) →
        (should_continue s1 = Except.ok "tools" ↔ tcs ≠ [])) := by
  constructor
  · unfold should_continue
    rw [h]
  · intro c tcs h1
    unfold should_continue
    rw [h1]
    cases tcs with
    | nil => simp
    | cons a l => simp

/-- C8, witness: two histories with different lengths, prefixes and user
ids but the same last turn route identically. -/
theorem routing_pure_witness :
    should_continue ⟨[Message.human "a", Message.ai "m" []], "u1"⟩ =
      should_continue ⟨[Message.ai "m" []], "u2"⟩ :=
  (routing_pure ⟨[Message.human "a", Message.ai "m" []], "u1"⟩
    ⟨[Message.ai "m" []], "u2"⟩ rfl).1
